import Mathlib

/-!
# Verification of the pumpfun-rs instruction builder and upload helpers

Shallow embedding of the repository sources:
* `src/instructions/create.rs`   (the `Create` / `CreateV2` argument records,
  their `data()` serializers and the `create` / `create_v2` builders),
* `src/instructions/extend_account.rs` (the `extend_account` builder),
* `src/utils/mod.rs`             (slippage helpers, multipart upload body
  construction and the tolerant image-upload response parsing).

Machine integers (`u64`, `u32`) are modelled as `Nat` with explicit `% 2^w`
where overflow matters; Rust release-profile wrapping semantics are used for
the unchecked `u64` arithmetic in the slippage helpers (debug builds would
panic at the same inputs instead of wrapping — either way no error value is
returned).  Byte strings are modelled as `List Nat`.

Program-derived addresses: the bodies of the PDA helper functions
(`PumpFun::get_*_pda`, `get_associated_token_address*`) and the address
constants in `constants::accounts` live outside the provided sources, so they
are modelled from the spec as a free term algebra of addresses: a derived
address is determined exactly by its seed list and the deriving program id
(deterministic, and injective in both, which is what the spec postulates of
seed-based derivation).
-/

/-! ## Addresses and program-derived addresses -/

mutual

/-- An address (public key).  `raw` is a caller-supplied 32-byte key, `named`
is one of the fixed program/sysvar id constants, `derived` is a program
derived address computed from a seed list and a deriving program id. -/
inductive Pubkey where
  | raw (bytes : List Nat) : Pubkey
  | named (id : String) : Pubkey
  | derived (seeds : SeedList) (program : Pubkey) : Pubkey

/-- A list of PDA seeds: each seed is either a literal byte-string tag or the
bytes of another address. -/
inductive SeedList where
  | nil : SeedList
  | consTag (tag : String) (rest : SeedList) : SeedList
  | consKey (k : Pubkey) (rest : SeedList) : SeedList

end

namespace constants
namespace accounts

/-- Modelled from the spec: fixed external program id constant (Pump.fun). -/
def PUMPFUN : Pubkey := .named "pumpfun-program"

/-- Modelled from the spec: MPL Token Metadata program id constant. -/
def MPL_TOKEN_METADATA : Pubkey := .named "mpl-token-metadata"

/-- Modelled from the spec: system program id constant. -/
def SYSTEM_PROGRAM : Pubkey := .named "system-program"

/-- Modelled from the spec: standard SPL token program id constant. -/
def TOKEN_PROGRAM : Pubkey := .named "spl-token"

/-- Modelled from the spec: SPL Token 2022 program id constant. -/
def TOKEN_2022_PROGRAM : Pubkey := .named "spl-token-2022"

/-- Modelled from the spec: associated token account program id constant. -/
def ASSOCIATED_TOKEN_PROGRAM : Pubkey := .named "spl-associated-token-account"

/-- Modelled from the spec: rent sysvar id constant. -/
def RENT : Pubkey := .named "sysvar-rent"

/-- Modelled from the spec: event authority address constant. -/
def EVENT_AUTHORITY : Pubkey := .named "event-authority"

/-- Modelled from the spec: mayhem program id constant. -/
def MAYHEM_PROGRAM : Pubkey := .named "mayhem-program"

end accounts
end constants

namespace PumpFun

/-- Modelled from the spec: `PumpFun::get_bonding_curve_pda`, deterministic
seed-based derivation of the per-token bonding-curve address against the
Pump.fun program id (the source body lives outside `src/`; its call sites
unwrap a `Some` result). -/
def get_bonding_curve_pda (mint : Pubkey) : Option Pubkey :=
  some (.derived (.consTag "bonding-curve" (.consKey mint .nil)) constants.accounts.PUMPFUN)

/-- Modelled from the spec: `PumpFun::get_mint_authority_pda`. -/
def get_mint_authority_pda : Pubkey :=
  .derived (.consTag "mint-authority" .nil) constants.accounts.PUMPFUN

/-- Modelled from the spec: `PumpFun::get_global_pda`. -/
def get_global_pda : Pubkey :=
  .derived (.consTag "global" .nil) constants.accounts.PUMPFUN

/-- Modelled from the spec: `PumpFun::get_metadata_pda`. -/
def get_metadata_pda (mint : Pubkey) : Pubkey :=
  .derived
    (.consTag "metadata"
      (.consKey constants.accounts.MPL_TOKEN_METADATA (.consKey mint .nil)))
    constants.accounts.MPL_TOKEN_METADATA

/-- Modelled from the spec: `PumpFun::get_global_params_pda`. -/
def get_global_params_pda : Pubkey :=
  .derived (.consTag "global-params" .nil) constants.accounts.MAYHEM_PROGRAM

/-- Modelled from the spec: `PumpFun::get_sol_vault_pda`. -/
def get_sol_vault_pda : Pubkey :=
  .derived (.consTag "sol-vault" .nil) constants.accounts.MAYHEM_PROGRAM

/-- Modelled from the spec: `PumpFun::get_mayhem_state_pda`. -/
def get_mayhem_state_pda (mint : Pubkey) : Pubkey :=
  .derived (.consTag "mayhem-state" (.consKey mint .nil)) constants.accounts.MAYHEM_PROGRAM

/-- Modelled from the spec: `PumpFun::get_token_vault_pda`. -/
def get_token_vault_pda (mint : Pubkey) : Pubkey :=
  .derived (.consTag "token-vault" (.consKey mint .nil)) constants.accounts.MAYHEM_PROGRAM

/-- Modelled from the spec and the source comment in `create.rs` lines
186-188: associated token account derivation with seeds
`[wallet, token_program, mint]` against the associated token program id. -/
def get_associated_token_address_with_program
    (wallet mint token_program : Pubkey) : Pubkey :=
  .derived (.consKey wallet (.consKey token_program (.consKey mint .nil)))
    constants.accounts.ASSOCIATED_TOKEN_PROGRAM

end PumpFun

/-- Modelled from the spec: `spl_associated_token_account::get_associated_token_address`,
the same derivation fixed to the standard SPL token program id. -/
def get_associated_token_address (wallet mint : Pubkey) : Pubkey :=
  PumpFun.get_associated_token_address_with_program wallet mint
    constants.accounts.TOKEN_PROGRAM

/-- Models the Rust `.unwrap()` on the `Option` returned by
`get_bonding_curve_pda` (always `Some` in this model, as in the source where
the fixed seed list is valid). -/
def unwrapKey : Option Pubkey → Pubkey
  | some k => k
  | none => Pubkey.raw []

/-! ## Instructions and account metadata (`solana_sdk` shapes) -/

/-- `solana_sdk::instruction::AccountMeta`. -/
structure AccountMeta where
  pubkey : Pubkey
  is_signer : Bool
  is_writable : Bool

/-- `AccountMeta::new` — writable account. -/
def AccountMeta.new (pubkey : Pubkey) (is_signer : Bool) : AccountMeta :=
  { pubkey := pubkey, is_signer := is_signer, is_writable := true }

/-- `AccountMeta::new_readonly` — readonly account. -/
def AccountMeta.new_readonly (pubkey : Pubkey) (is_signer : Bool) : AccountMeta :=
  { pubkey := pubkey, is_signer := is_signer, is_writable := false }

/-- `solana_sdk::instruction::Instruction`; payload bytes as `List Nat`. -/
structure Instruction where
  program_id : Pubkey
  accounts : List AccountMeta
  data : List Nat

/-- `Instruction::new_with_bytes`. -/
def Instruction.new_with_bytes (program_id : Pubkey) (data : List Nat)
    (accounts : List AccountMeta) : Instruction :=
  { program_id := program_id, accounts := accounts, data := data }

/-- A keypair, used by the builders only through its public key. -/
structure Keypair where
  pubkey : Pubkey

/-! ## Borsh encoding (as used by the derived `BorshSerialize` impls)

Borsh serializes a `String` as a little-endian `u32` byte length followed by
the raw UTF-8 bytes, a `Pubkey` as its raw 32 bytes, and a `bool` as one byte
`0` or `1`.  Strings are modelled by their UTF-8 byte lists. -/

/-- Little-endian 4-byte encoding of a `u32` length. -/
def u32le (n : Nat) : List Nat :=
  [n % 256, n / 256 % 256, n / 65536 % 256, n / 16777216 % 256]

/-- Borsh encoding of a length-prefixed byte string. -/
def borshString (s : List Nat) : List Nat := u32le s.length ++ s

/-- Borsh encoding of a `bool`. -/
def borshBool (b : Bool) : List Nat := [if b then 1 else 0]

/-! ## `src/instructions/create.rs` -/

/-- Instruction data for creating a new token (`Create` in `create.rs`).
The string fields are represented by their UTF-8 bytes and the creator
`Pubkey` by its raw 32 bytes, which is exactly what the derived borsh
serializer consumes. -/
structure Create where
  name : List Nat
  symbol : List Nat
  uri : List Nat
  creator : List Nat

namespace Create

/-- `Create::DISCRIMINATOR`. -/
def DISCRIMINATOR : List Nat := [24, 30, 200, 40, 5, 28, 7, 119]

/-- `Create::data`: discriminator followed by the borsh serialization of the
fields in declared order. -/
def data (a : Create) : List Nat :=
  DISCRIMINATOR ++ borshString a.name ++ borshString a.symbol ++
    borshString a.uri ++ a.creator

end Create

/-- Instruction data for `create_v2` (`CreateV2` in `create.rs`). -/
structure CreateV2 where
  name : List Nat
  symbol : List Nat
  uri : List Nat
  creator : List Nat
  is_mayhem_mode : Bool

namespace CreateV2

/-- `CreateV2::DISCRIMINATOR`. -/
def DISCRIMINATOR : List Nat := [214, 144, 76, 236, 95, 139, 49, 180]

/-- `CreateV2::data`. -/
def data (a : CreateV2) : List Nat :=
  DISCRIMINATOR ++ borshString a.name ++ borshString a.symbol ++
    borshString a.uri ++ a.creator ++ borshBool a.is_mayhem_mode

end CreateV2

/-- `create` (`create.rs` lines 81-106). -/
def create (payer : Keypair) (mint : Keypair) (args : Create) : Instruction :=
  let bonding_curve : Pubkey := unwrapKey (PumpFun.get_bonding_curve_pda mint.pubkey)
  Instruction.new_with_bytes
    constants.accounts.PUMPFUN
    (args.data)
    [ AccountMeta.new mint.pubkey true,
      AccountMeta.new PumpFun.get_mint_authority_pda false,
      AccountMeta.new bonding_curve false,
      AccountMeta.new (get_associated_token_address bonding_curve mint.pubkey) false,
      AccountMeta.new_readonly PumpFun.get_global_pda false,
      AccountMeta.new_readonly constants.accounts.MPL_TOKEN_METADATA false,
      AccountMeta.new (PumpFun.get_metadata_pda mint.pubkey) false,
      AccountMeta.new payer.pubkey true,
      AccountMeta.new_readonly constants.accounts.SYSTEM_PROGRAM false,
      AccountMeta.new_readonly constants.accounts.TOKEN_PROGRAM false,
      AccountMeta.new_readonly constants.accounts.ASSOCIATED_TOKEN_PROGRAM false,
      AccountMeta.new_readonly constants.accounts.RENT false,
      AccountMeta.new_readonly constants.accounts.EVENT_AUTHORITY false,
      AccountMeta.new_readonly constants.accounts.PUMPFUN false ]

/-- `create_v2` (`create.rs` lines 178-220): the associated bonding-curve
token account is derived with the Token 2022 program id as the token-program
seed. -/
def create_v2 (payer : Keypair) (mint : Keypair) (args : CreateV2) : Instruction :=
  let bonding_curve : Pubkey := unwrapKey (PumpFun.get_bonding_curve_pda mint.pubkey)
  let mayhem_program := constants.accounts.MAYHEM_PROGRAM
  let global_params := PumpFun.get_global_params_pda
  let sol_vault := PumpFun.get_sol_vault_pda
  let mayhem_state := PumpFun.get_mayhem_state_pda mint.pubkey
  let mayhem_token_vault := PumpFun.get_token_vault_pda mint.pubkey
  let associated_bonding_curve := PumpFun.get_associated_token_address_with_program
    bonding_curve mint.pubkey constants.accounts.TOKEN_2022_PROGRAM
  Instruction.new_with_bytes
    constants.accounts.PUMPFUN
    (args.data)
    [ AccountMeta.new mint.pubkey true,
      AccountMeta.new PumpFun.get_mint_authority_pda false,
      AccountMeta.new bonding_curve false,
      AccountMeta.new associated_bonding_curve false,
      AccountMeta.new_readonly PumpFun.get_global_pda false,
      AccountMeta.new payer.pubkey true,
      AccountMeta.new_readonly constants.accounts.SYSTEM_PROGRAM false,
      AccountMeta.new_readonly constants.accounts.TOKEN_2022_PROGRAM false,
      AccountMeta.new_readonly constants.accounts.ASSOCIATED_TOKEN_PROGRAM false,
      AccountMeta.new mayhem_program false,
      AccountMeta.new_readonly global_params false,
      AccountMeta.new sol_vault false,
      AccountMeta.new mayhem_state false,
      AccountMeta.new mayhem_token_vault false,
      AccountMeta.new_readonly constants.accounts.EVENT_AUTHORITY false,
      AccountMeta.new_readonly constants.accounts.PUMPFUN false ]

/-! ## `src/instructions/extend_account.rs` -/

/-- `extend_account` discriminator bytes (`extend_account.rs` line 39). -/
def EXTEND_ACCOUNT_DISCRIMINATOR : List Nat := [234, 102, 194, 203, 150, 72, 62, 229]

/-- `extend_account` (`extend_account.rs` lines 36-48). -/
def extend_account (payer : Keypair) (account : Pubkey) : Instruction :=
  Instruction.new_with_bytes
    constants.accounts.PUMPFUN
    EXTEND_ACCOUNT_DISCRIMINATOR
    [ AccountMeta.new account false,
      AccountMeta.new payer.pubkey true,
      AccountMeta.new_readonly constants.accounts.SYSTEM_PROGRAM false,
      AccountMeta.new_readonly constants.accounts.EVENT_AUTHORITY false,
      AccountMeta.new_readonly constants.accounts.PUMPFUN false ]

/-! ## Slippage helpers (`src/utils/mod.rs` lines 416-442)

Unchecked `u64` arithmetic, modelled with release-profile wrapping semantics
(`% 2^64` after every `+`, `*`, `-`).  Truncating division cannot wrap. -/

/-- `calculate_with_slippage_buy`: `amount + (amount * basis_points) / 10000`. -/
def calculate_with_slippage_buy (amount basis_points : Nat) : Nat :=
  (amount + (amount * basis_points % 2 ^ 64) / 10000) % 2 ^ 64

/-- `calculate_with_slippage_sell`: `amount - (amount * basis_points) / 10000`
(wrapping `u64` subtraction; a debug build would panic on underflow). -/
def calculate_with_slippage_sell (amount basis_points : Nat) : Nat :=
  (amount + 2 ^ 64 - (amount * basis_points % 2 ^ 64) / 10000) % 2 ^ 64

/-! ## Substring machinery (for multipart bodies and error messages) -/

/-- `listPrefixOf p s`: `p` is a prefix of `s`. -/
def listPrefixOf {α : Type} [DecidableEq α] : List α → List α → Bool
  | [], _ => true
  | _ :: _, [] => false
  | a :: as, b :: bs => if a = b then listPrefixOf as bs else false

/-- `listInfixOf p s`: `p` occurs contiguously inside `s`. -/
def listInfixOf {α : Type} [DecidableEq α] (p : List α) : List α → Bool
  | [] => listPrefixOf p []
  | b :: bs => listPrefixOf p (b :: bs) || listInfixOf p bs

/-- Substring test on strings (`str.contains(pat)` in Rust). -/
def strContainsSub (s pat : String) : Bool := listInfixOf pat.data s.data

/-- Prefix test on strings (`str.starts_with(pat)` in Rust). -/
def strStartsWith (s pat : String) : Bool := listPrefixOf pat.data s.data

/-! ## JSON values (`serde_json::Value`) -/

mutual

/-- A JSON value, mirroring `serde_json::Value` (numbers abstracted to `Int`,
which the claims never inspect). -/
inductive Json where
  | null : Json
  | jbool (b : Bool) : Json
  | jnum (n : Int) : Json
  | jstr (s : String) : Json
  | jarr (elems : JsonArr) : Json
  | jobj (fields : JsonObj) : Json

/-- A JSON array. -/
inductive JsonArr where
  | nil : JsonArr
  | cons (hd : Json) (tl : JsonArr) : JsonArr

/-- A JSON object: an ordered list of key/value fields. -/
inductive JsonObj where
  | nil : JsonObj
  | cons (key : String) (val : Json) (tl : JsonObj) : JsonObj

end

namespace Json

/-- `Value::get(key)`: first field with the given key, on objects only. -/
def getField : Json → String → Option Json
  | .jobj fields, k => go fields k
  | _, _ => none
where
  go : JsonObj → String → Option Json
    | .nil, _ => none
    | .cons key v tl, k => if key = k then some v else go tl k

/-- `v.get(key).and_then(|v| v.as_str())`: the field's value when it is a
string. -/
def getStrField (v : Json) (k : String) : Option String :=
  match v.getField k with
  | some (.jstr s) => some s
  | _ => none

end Json

/-- The URI test applied by the recursive fallback scan in
`upload_image_to_ipfs` (`utils/mod.rs` lines 159-164): the lowercased string
contains `"ipfs"` or starts with `"http"` (lowercasing modelled characterwise
with `Char.toLower`, which matches Rust `to_lowercase` on the ASCII patterns
involved). -/
def looks_like_uri (s : String) : Bool :=
  strContainsSub (String.mk (s.data.map Char.toLower)) "ipfs"
    || strStartsWith (String.mk (s.data.map Char.toLower)) "http"

mutual

/-- `find_ipfs_string` (`utils/mod.rs` lines 157-184): first nested string
value that passes `looks_like_uri`, in document order. -/
def find_ipfs_string : Json → Option String
  | .jstr s => if looks_like_uri s then some s else none
  | .jarr elems => find_ipfs_string_arr elems
  | .jobj fields => find_ipfs_string_obj fields
  | _ => none

/-- Scan of a JSON array, first match wins. -/
def find_ipfs_string_arr : JsonArr → Option String
  | .nil => none
  | .cons hd tl =>
    match find_ipfs_string hd with
    | some found => some found
    | none => find_ipfs_string_arr tl

/-- Scan of a JSON object's values, first match wins. -/
def find_ipfs_string_obj : JsonObj → Option String
  | .nil => none
  | .cons _ v tl =>
    match find_ipfs_string v with
    | some found => some found
    | none => find_ipfs_string_obj tl

end

/-- The extraction chain of `upload_image_to_ipfs` (`utils/mod.rs` lines
136-188) applied to the parsed response value.  The initial typed
deserialization into `ImageUploadResponse` succeeds exactly when the
top-level object carries an `"imageUri"` string field (serde renames
`image_uri` to camelCase and tolerates unknown fields), so it coincides with
the first fallback lookup and is covered by it. -/
def extract_image_location (v : Json) : Option String :=
  match v.getStrField "imageUri" with
  | some s => some s
  | none =>
    match v.getStrField "image_uri" with
    | some s => some s
    | none =>
      match v.getStrField "uri" with
      | some s => some s
      | none =>
        match v.getStrField "url" with
        | some s => some s
        | none => find_ipfs_string v

/-- The result of the response-parsing part of `upload_image_to_ipfs`, given
the raw response body `text` and its parse `v` (`utils/mod.rs` lines
136-191): the extracted location, or the explicit error carrying the raw
body. -/
def upload_image_parse (text : String) (v : Json) : Except String String :=
  match extract_image_location v with
  | some s => Except.ok s
  | none => Except.error ("unexpected image upload response: " ++ text)

/-! ## Multipart bodies (`src/utils/mod.rs` lines 95-126 and 205-245) -/

/-- The fixed multipart boundary used by both upload requests. -/
def upload_boundary : String := "------------------------f4d9c2e8b7a5310f"

/-- UTF-8-ish byte view of an ASCII string (all strings involved are ASCII). -/
def strBytes (s : String) : List Nat := s.data.map Char.toNat

/-- The image-upload multipart body (`utils/mod.rs` lines 96-115): a single
file part whose `Content-Type` header is the hard-coded literal
`application/octet-stream`; `file_path` is used only to read the raw
`file_contents` and never influences the headers. -/
def upload_image_body (file_path : String) (file_contents : List Nat) : List Nat :=
  strBytes ("--" ++ upload_boundary ++ "\r\n"
      ++ "Content-Disposition: form-data; name=\"file\"; filename=\"file\"\r\n"
      ++ "Content-Type: application/octet-stream\r\n\r\n")
    ++ file_contents
    ++ strBytes ("\r\n--" ++ upload_boundary ++ "--\r\n")

/-- Modelled from the spec: the content-type inference the spec describes for
the image upload ("png/jpeg/gif recognized explicitly; otherwise a generic
binary type"), to be compared with what the source actually does. -/
def infer_content_type_spec (ext : String) : String :=
  if ext = "png" then "image/png"
  else if ext = "jpeg" then "image/jpeg"
  else if ext = "gif" then "image/gif"
  else "application/octet-stream"

/-- `CreateTokenMetadata` (`utils/mod.rs` lines 68-83). -/
structure CreateTokenMetadata where
  name : String
  symbol : String
  description : String
  file : String
  twitter : Option String
  telegram : Option String
  website : Option String

/-- `append_text_field` (`utils/mod.rs` lines 213-222). -/
def append_text_field (body : String) (boundary name value : String) : String :=
  body ++ "--" ++ boundary ++ "\r\n"
    ++ "Content-Disposition: form-data; name=\"" ++ name ++ "\"\r\n\r\n"
    ++ value ++ "\r\n"

/-- The metadata-upload multipart body (`utils/mod.rs` lines 209-245),
mirroring the exact sequence of `append_text_field` calls including the
conditional optional fields. -/
def upload_metadata_body (m : CreateTokenMetadata) (image_uri : String) : String :=
  let body := ""
  let body := append_text_field body upload_boundary "name" m.name
  let body := append_text_field body upload_boundary "symbol" m.symbol
  let body := append_text_field body upload_boundary "description" m.description
  let body := append_text_field body upload_boundary "image" image_uri
  let body := append_text_field body upload_boundary "imageUri" image_uri
  let body := match m.twitter with
    | some twitter => append_text_field body upload_boundary "twitter" twitter
    | none => body
  let body := match m.telegram with
    | some telegram => append_text_field body upload_boundary "telegram" telegram
    | none => body
  let body := match m.website with
    | some website => append_text_field body upload_boundary "website" website
    | none => body
  let body := append_text_field body upload_boundary "showName" "true"
  let body := append_text_field body upload_boundary "createdOn" "https://pump.fun"
  body ++ "--" ++ upload_boundary ++ "--\r\n"

/-- The (name, value) form fields of the metadata-upload body, in the order
they are appended in `upload_metadata_json`. -/
def metadata_form_fields (m : CreateTokenMetadata) (image_uri : String) :
    List (String × String) :=
  [("name", m.name), ("symbol", m.symbol), ("description", m.description),
   ("image", image_uri), ("imageUri", image_uri)]
  ++ (match m.twitter with | some t => [("twitter", t)] | none => [])
  ++ (match m.telegram with | some t => [("telegram", t)] | none => [])
  ++ (match m.website with | some w => [("website", w)] | none => [])
  ++ [("showName", "true"), ("createdOn", "https://pump.fun")]

/-! ## Borsh decoding with the same field-order schema (for the round-trip
claim): length-prefixed strings, 32-byte creator key, and for `CreateV2` a
trailing `bool`. -/

/-- Read a little-endian `u32` from the front of a byte list. -/
def readU32 : List Nat → Option (Nat × List Nat)
  | b0 :: b1 :: b2 :: b3 :: rest =>
    some (b0 + 256 * b1 + 65536 * b2 + 16777216 * b3, rest)
  | _ => none

/-- Read a length-prefixed byte string. -/
def readString (bs : List Nat) : Option (List Nat × List Nat) :=
  match readU32 bs with
  | none => none
  | some (n, rest) =>
    if n ≤ rest.length then some (rest.take n, rest.drop n) else none

/-- Read a borsh `bool` byte. -/
def readBool : List Nat → Option (Bool × List Nat)
  | 0 :: rest => some (false, rest)
  | 1 :: rest => some (true, rest)
  | _ => none

/-- Decode the `Create` field schema (name, symbol, uri, then exactly the 32
creator-key bytes) from the payload bytes after the discriminator. -/
def decodeCreate (bs : List Nat) : Option Create :=
  match readString bs with
  | none => none
  | some (name, r1) =>
    match readString r1 with
    | none => none
    | some (symbol, r2) =>
      match readString r2 with
      | none => none
      | some (uri, r3) =>
        if r3.length = 32 then
          some { name := name, symbol := symbol, uri := uri, creator := r3 }
        else none

/-- Decode the `CreateV2` field schema (as `Create`, plus a trailing
`is_mayhem_mode` bool after the 32 creator-key bytes). -/
def decodeCreateV2 (bs : List Nat) : Option CreateV2 :=
  match readString bs with
  | none => none
  | some (name, r1) =>
    match readString r1 with
    | none => none
    | some (symbol, r2) =>
      match readString r2 with
      | none => none
      | some (uri, r3) =>
        if 32 ≤ r3.length then
          match readBool (r3.drop 32) with
          | some (flag, []) =>
            some { name := name, symbol := symbol, uri := uri,
                   creator := r3.take 32, is_mayhem_mode := flag }
          | _ => none
        else none

/-! ## Spec-side predicates for the tolerant image-response parsing claim

These follow the claim's words, to be compared with the extraction chain
translated from the source. -/

mutual

/-- A string value occurs somewhere inside a JSON value (the claim's "any
nested string"). -/
inductive Json.StrIn : Json → String → Prop where
  | self (s : String) : Json.StrIn (.jstr s) s
  | inArr {elems : JsonArr} {s : String} :
      JsonArr.StrIn elems s → Json.StrIn (.jarr elems) s
  | inObj {fields : JsonObj} {s : String} :
      JsonObj.StrIn fields s → Json.StrIn (.jobj fields) s

/-- A string value occurs in some element of a JSON array. -/
inductive JsonArr.StrIn : JsonArr → String → Prop where
  | hd {x : Json} {tl : JsonArr} {s : String} :
      Json.StrIn x s → JsonArr.StrIn (.cons x tl) s
  | tl {x : Json} {tl : JsonArr} {s : String} :
      JsonArr.StrIn tl s → JsonArr.StrIn (.cons x tl) s

/-- A string value occurs in some field value of a JSON object. -/
inductive JsonObj.StrIn : JsonObj → String → Prop where
  | hd {k : String} {x : Json} {tl : JsonObj} {s : String} :
      Json.StrIn x s → JsonObj.StrIn (.cons k x tl) s
  | tl {k : String} {x : Json} {tl : JsonObj} {s : String} :
      JsonObj.StrIn tl s → JsonObj.StrIn (.cons k x tl) s

end

/-- The claim's recognizable-location predicate, with the substring matching
read case-insensitively (as the source does after lowercasing): the body
carries the location under one of the recognized field names, or some nested
string passes the URI test. -/
def image_location_of (v : Json) (s : String) : Prop :=
  v.getStrField "imageUri" = some s ∨ v.getStrField "image_uri" = some s ∨
  v.getStrField "uri" = some s ∨ v.getStrField "url" = some s ∨
  (Json.StrIn v s ∧ looks_like_uri s = true)

/-- The body carries some recognizable location (case-insensitive reading). -/
def recognizable_image_location (v : Json) : Prop :=
  ∃ s, image_location_of v s

/-- Modelled from the claim's words, case-SENSITIVE reading: the string
literally contains `"ipfs"` or literally starts with `"http"` (no
lowercasing).  Used to state the counterexample to the claim as written. -/
def looks_like_uri_cs (s : String) : Bool :=
  strContainsSub s "ipfs" || strStartsWith s "http"

mutual

/-- Executable case-sensitive scan for a nested string matching the claim's
literal wording. -/
def has_uri_string_cs : Json → Bool
  | .jstr s => looks_like_uri_cs s
  | .jarr elems => has_uri_string_cs_arr elems
  | .jobj fields => has_uri_string_cs_obj fields
  | _ => false

/-- Case-sensitive scan over a JSON array. -/
def has_uri_string_cs_arr : JsonArr → Bool
  | .nil => false
  | .cons hd tl => has_uri_string_cs hd || has_uri_string_cs_arr tl

/-- Case-sensitive scan over a JSON object's values. -/
def has_uri_string_cs_obj : JsonObj → Bool
  | .nil => false
  | .cons _ v tl => has_uri_string_cs v || has_uri_string_cs_obj tl

end

/-- Modelled from the claim's words, case-sensitive reading: the body carries
a recognizable location (recognized field name, or nested string literally
containing `"ipfs"` or starting with `"http"`). -/
def recognizable_image_location_cs (v : Json) : Bool :=
  (v.getStrField "imageUri").isSome || (v.getStrField "image_uri").isSome ||
  (v.getStrField "uri").isSome || (v.getStrField "url").isSome ||
  has_uri_string_cs v

/-! # Lemmas -/

theorem listPrefixOf_append_self {α : Type} [DecidableEq α] (p t : List α) :
    listPrefixOf p (p ++ t) = true := by
  induction p with
  | nil => rfl
  | cons a as ih => simp [listPrefixOf, ih]

theorem listPrefixOf_extend {α : Type} [DecidableEq α] :
    ∀ (p s t : List α), listPrefixOf p s = true → listPrefixOf p (s ++ t) = true
  | [], _, _, _ => rfl
  | _ :: _, [], _, h => by cases h
  | a :: as, b :: bs, t, h => by
    simp only [listPrefixOf] at h
    by_cases hab : a = b
    · rw [if_pos hab] at h
      simp only [List.cons_append, listPrefixOf, if_pos hab]
      exact listPrefixOf_extend as bs t h
    · rw [if_neg hab] at h
      cases h

theorem listInfixOf_append_left {α : Type} [DecidableEq α] :
    ∀ (a : List α) (p b : List α), listInfixOf p a = true → listInfixOf p (a ++ b) = true
  | [], p, b, h => by
    cases p with
    | nil => cases b with
      | nil => rfl
      | cons x xs => simp [listInfixOf, listPrefixOf]
    | cons q qs => cases h
  | x :: xs, p, b, h => by
    simp only [listInfixOf, Bool.or_eq_true] at h ⊢
    rcases h with h | h
    · exact Or.inl (listPrefixOf_extend p (x :: xs) b h)
    · exact Or.inr (listInfixOf_append_left xs p b h)

theorem listInfixOf_append_right {α : Type} [DecidableEq α] :
    ∀ (a p : List α), listInfixOf p (a ++ p) = true
  | [], p => by
    cases p with
    | nil => rfl
    | cons x xs =>
      simp only [List.nil_append, listInfixOf, Bool.or_eq_true]
      exact Or.inl (by simpa using listPrefixOf_append_self (x :: xs) [])
  | x :: xs, p => by
    simp only [List.cons_append, listInfixOf, Bool.or_eq_true]
    exact Or.inr (listInfixOf_append_right xs p)

theorem readU32_u32le (n : Nat) (rest : List Nat) (h : n < 2 ^ 32) :
    readU32 (u32le n ++ rest) = some (n, rest) := by
  simp only [u32le, List.cons_append, List.nil_append, readU32, Option.some.injEq,
    Prod.mk.injEq]
  exact ⟨by omega, trivial⟩

theorem readString_borshString (s rest : List Nat) (h : s.length < 2 ^ 32) :
    readString (borshString s ++ rest) = some (s, rest) := by
  simp only [borshString, List.append_assoc, readString, readU32_u32le s.length (s ++ rest) h]
  rw [if_pos (by simp)]
  rw [List.take_left, List.drop_left]

/-! # Claims -/

/-- C1: each builder produces an account list of fixed length, order and
flags independent of the concrete addresses: `create` returns exactly 14
accounts headed by the mint marked signer and writable, `create_v2` returns
exactly 16 accounts headed by the mint marked signer and writable, and
`extend_account` returns exactly 5 accounts headed by the target account
(writable, non-signer) followed by the payer marked signer. -/
theorem account_lists_fixed (payer mint : Keypair) (args : Create)
    (args2 : CreateV2) (account : Pubkey) :
    (create payer mint args).accounts.length = 14 ∧
    (create payer mint args).accounts.head? =
      some { pubkey := mint.pubkey, is_signer := true, is_writable := true } ∧
    (create_v2 payer mint args2).accounts.length = 16 ∧
    (create_v2 payer mint args2).accounts.head? =
      some { pubkey := mint.pubkey, is_signer := true, is_writable := true } ∧
    (extend_account payer account).accounts.length = 5 ∧
    (extend_account payer account).accounts.head? =
      some { pubkey := account, is_signer := false, is_writable := true } ∧
    (extend_account payer account).accounts[1]? =
      some { pubkey := payer.pubkey, is_signer := true, is_writable := true } :=
  ⟨rfl, rfl, rfl, rfl, rfl, rfl, rfl⟩

/-- C2: for every operation variant and all input field values, the
instruction payload begins with that variant's fixed 8-byte discriminator
(`[24,30,200,40,5,28,7,119]` for `Create`, `[214,144,76,236,95,139,49,180]`
for `CreateV2`, `[234,102,194,203,150,72,62,229]` for `extend_account`,
whose payload is exactly the discriminator). -/
theorem discriminators_fixed (a : Create) (b : CreateV2) (payer mint : Keypair)
    (account : Pubkey) :
    (Create.data a).take 8 = [24, 30, 200, 40, 5, 28, 7, 119] ∧
    (CreateV2.data b).take 8 = [214, 144, 76, 236, 95, 139, 49, 180] ∧
    (create payer mint a).data.take 8 = [24, 30, 200, 40, 5, 28, 7, 119] ∧
    (create_v2 payer mint b).data.take 8 = [214, 144, 76, 236, 95, 139, 49, 180] ∧
    (extend_account payer account).data = [234, 102, 194, 203, 150, 72, 62, 229] :=
  ⟨rfl, rfl, rfl, rfl, rfl⟩

/-- C5 (counterexample to the claim as stated): at `amount = 1`,
`basis_points = 20000` the subtrahend `amount * basis_points / 10000 = 2`
exceeds `amount`, and `calculate_with_slippage_sell` does not reject the
input as an error: it returns the wrapped modulo-`2^64` value `2^64 - 1`
(total function into `u64`; a debug build would panic rather than produce an
error value). -/
theorem sell_slippage_no_reject_cx :
    1 * 20000 % 2 ^ 64 / 10000 > 1 ∧
    calculate_with_slippage_sell 1 20000 = 2 ^ 64 - 1 := by
  constructor
  · decide
  · decide

/-- C5 (amended): for every `amount` and `basis_points` (as `u64` values)
where `amount * basis_points / 10000 > amount`, the sell-slippage helper
performs no input validation and returns the wrapped modulo-`2^64` result
`amount - amount * basis_points / 10000 + 2^64` instead of an error. -/
theorem sell_slippage_wraps (amount basis_points : Nat)
    (hA : amount < 2 ^ 64) (hB : basis_points < 2 ^ 64)
    (hunder : amount < amount * basis_points % 2 ^ 64 / 10000) :
    calculate_with_slippage_sell amount basis_points
      = amount + 2 ^ 64 - amount * basis_points % 2 ^ 64 / 10000 := by
  unfold calculate_with_slippage_sell
  have h2 : amount * basis_points % 2 ^ 64 < 2 ^ 64 :=
    Nat.mod_lt _ (by norm_num)
  generalize hq : amount * basis_points % 2 ^ 64 / 10000 = q at hunder ⊢
  have hq2 : q < 2 ^ 64 := by
    rw [← hq]
    exact Nat.lt_of_le_of_lt (Nat.div_le_self _ _) h2
  omega

/-- C5 witness: the amended theorem applied at the concrete input
`amount = 1`, `basis_points = 20000`. -/
theorem sell_slippage_wraps_witness :
    calculate_with_slippage_sell 1 20000 = 1 + 2 ^ 64 - 1 * 20000 % 2 ^ 64 / 10000 :=
  sell_slippage_wraps 1 20000 (by decide) (by decide) (by decide)

/-- C6: whenever the exact integer arithmetic stays within `u64` (no overflow
in the product or the sum, and the subtrahend at most `amount`), the slippage
helpers compute `amount + amount * basis_points / 10000` and
`amount - amount * basis_points / 10000` with truncating division; in
particular `buy(1000000000, 100) = 1010000000` and
`sell(1000000000, 100) = 990000000`. -/
theorem slippage_exact (amount basis_points : Nat)
    (hA : amount < 2 ^ 64)
    (hprod : amount * basis_points < 2 ^ 64)
    (hsum : amount + amount * basis_points / 10000 < 2 ^ 64)
    (hsub : amount * basis_points / 10000 ≤ amount) :
    calculate_with_slippage_buy amount basis_points
        = amount + amount * basis_points / 10000 ∧
    calculate_with_slippage_sell amount basis_points
        = amount - amount * basis_points / 10000 ∧
    calculate_with_slippage_buy 1000000000 100 = 1010000000 ∧
    calculate_with_slippage_sell 1000000000 100 = 990000000 := by
  refine ⟨?_, ?_, by decide, by decide⟩
  · unfold calculate_with_slippage_buy
    rw [Nat.mod_eq_of_lt hprod]
    generalize hq : amount * basis_points / 10000 = q at hsum ⊢
    omega
  · unfold calculate_with_slippage_sell
    rw [Nat.mod_eq_of_lt hprod]
    generalize hq : amount * basis_points / 10000 = q at hsub ⊢
    omega

/-- C6 witness: the theorem applied at the concrete input
`amount = 1000000000`, `basis_points = 100`. -/
theorem slippage_exact_witness :
    calculate_with_slippage_buy 1000000000 100 = 1000000000 + 1000000000 * 100 / 10000 ∧
    calculate_with_slippage_sell 1000000000 100 = 1000000000 - 1000000000 * 100 / 10000 := by
  have h := slippage_exact 1000000000 100 (by decide) (by decide) (by decide) (by decide)
  exact ⟨h.1, h.2.1⟩

/-- C9: instruction building is deterministic and side-effect-free — the
builders are pure functions, so two invocations with identical inputs yield
identical instructions (same program id, account list, payload bytes) and
identical derived addresses. -/
theorem builders_deterministic (p1 p2 m1 m2 : Keypair) (a1 a2 : Create)
    (b1 b2 : CreateV2) (acc1 acc2 : Pubkey)
    (hp : p1 = p2) (hm : m1 = m2) (ha : a1 = a2) (hb : b1 = b2)
    (hacc : acc1 = acc2) :
    create p1 m1 a1 = create p2 m2 a2 ∧
    (create p1 m1 a1).program_id = (create p2 m2 a2).program_id ∧
    (create p1 m1 a1).accounts = (create p2 m2 a2).accounts ∧
    (create p1 m1 a1).data = (create p2 m2 a2).data ∧
    create_v2 p1 m1 b1 = create_v2 p2 m2 b2 ∧
    extend_account p1 acc1 = extend_account p2 acc2 ∧
    PumpFun.get_bonding_curve_pda m1.pubkey = PumpFun.get_bonding_curve_pda m2.pubkey ∧
    PumpFun.get_metadata_pda m1.pubkey = PumpFun.get_metadata_pda m2.pubkey ∧
    PumpFun.get_mayhem_state_pda m1.pubkey = PumpFun.get_mayhem_state_pda m2.pubkey ∧
    PumpFun.get_token_vault_pda m1.pubkey = PumpFun.get_token_vault_pda m2.pubkey ∧
    get_associated_token_address
        (unwrapKey (PumpFun.get_bonding_curve_pda m1.pubkey)) m1.pubkey
      = get_associated_token_address
        (unwrapKey (PumpFun.get_bonding_curve_pda m2.pubkey)) m2.pubkey ∧
    PumpFun.get_associated_token_address_with_program
        (unwrapKey (PumpFun.get_bonding_curve_pda m1.pubkey)) m1.pubkey
        constants.accounts.TOKEN_2022_PROGRAM
      = PumpFun.get_associated_token_address_with_program
        (unwrapKey (PumpFun.get_bonding_curve_pda m2.pubkey)) m2.pubkey
        constants.accounts.TOKEN_2022_PROGRAM := by
  subst hp; subst hm; subst ha; subst hb; subst hacc
  exact ⟨rfl, rfl, rfl, rfl, rfl, rfl, rfl, rfl, rfl, rfl, rfl, rfl⟩

/-- C9 witness: determinism at a concrete input (two syntactically separate
but equal invocations). -/
theorem builders_deterministic_witness :
    create { pubkey := Pubkey.raw [1] } { pubkey := Pubkey.raw [2] }
        { name := [97], symbol := [98], uri := [99], creator := [0] }
      = create { pubkey := Pubkey.raw [1] } { pubkey := Pubkey.raw [2] }
        { name := [97], symbol := [98], uri := [99], creator := [0] } :=
  (builders_deterministic
    { pubkey := Pubkey.raw [1] } { pubkey := Pubkey.raw [1] }
    { pubkey := Pubkey.raw [2] } { pubkey := Pubkey.raw [2] }
    { name := [97], symbol := [98], uri := [99], creator := [0] }
    { name := [97], symbol := [98], uri := [99], creator := [0] }
    { name := [97], symbol := [98], uri := [99], creator := [0], is_mayhem_mode := true }
    { name := [97], symbol := [98], uri := [99], creator := [0], is_mayhem_mode := true }
    (Pubkey.raw [3]) (Pubkey.raw [3]) rfl rfl rfl rfl rfl).1

/-- C3: for every `Create` and `CreateV2` argument record (strings below the
`u32` length-prefix bound and a 32-byte creator key), decoding the produced
payload after the 8-byte discriminator with the same field-order schema
reproduces the original typed arguments exactly. -/
theorem payload_roundtrip (a : Create) (b : CreateV2)
    (ha1 : a.name.length < 2 ^ 32) (ha2 : a.symbol.length < 2 ^ 32)
    (ha3 : a.uri.length < 2 ^ 32) (ha4 : a.creator.length = 32)
    (hb1 : b.name.length < 2 ^ 32) (hb2 : b.symbol.length < 2 ^ 32)
    (hb3 : b.uri.length < 2 ^ 32) (hb4 : b.creator.length = 32) :
    decodeCreate ((Create.data a).drop 8) = some a ∧
    decodeCreateV2 ((CreateV2.data b).drop 8) = some b := by
  constructor
  · have hdrop : (Create.data a).drop 8
        = borshString a.name ++ (borshString a.symbol ++ (borshString a.uri ++ a.creator)) := by
      simp [Create.data, Create.DISCRIMINATOR, List.append_assoc]
    rw [hdrop]
    simp only [decodeCreate, readString_borshString _ _ ha1,
      readString_borshString _ _ ha2, readString_borshString _ _ ha3]
    rw [if_pos ha4]
  · have hdrop : (CreateV2.data b).drop 8
        = borshString b.name ++ (borshString b.symbol ++ (borshString b.uri
            ++ (b.creator ++ borshBool b.is_mayhem_mode))) := by
      simp [CreateV2.data, CreateV2.DISCRIMINATOR, List.append_assoc]
    rw [hdrop]
    simp only [decodeCreateV2, readString_borshString _ _ hb1,
      readString_borshString _ _ hb2, readString_borshString _ _ hb3]
    rw [if_pos (by simp [hb4])]
    rw [List.take_left' hb4, List.drop_left' hb4]
    have heta : ∀ (fl : Bool), b.is_mayhem_mode = fl →
        ({ name := b.name, symbol := b.symbol, uri := b.uri,
           creator := b.creator, is_mayhem_mode := fl } : CreateV2) = b := by
      intro fl h
      rw [← h]
    cases hflag : b.is_mayhem_mode <;>
      simp [borshBool, readBool, hflag, heta _ hflag]

/-- C3 witness: the round-trip at a concrete argument record. -/
theorem payload_roundtrip_witness :
    decodeCreate ((Create.data
      { name := [116, 107], symbol := [84], uri := [117],
        creator := List.replicate 32 7 }).drop 8)
      = some { name := [116, 107], symbol := [84], uri := [117],
               creator := List.replicate 32 7 } :=
  (payload_roundtrip
    { name := [116, 107], symbol := [84], uri := [117],
      creator := List.replicate 32 7 }
    { name := [], symbol := [], uri := [], creator := List.replicate 32 9,
      is_mayhem_mode := true }
    (by decide) (by decide) (by decide) (by decide)
    (by decide) (by decide) (by decide) (by decide)).1

/-- C4: the `create_v2` builder derives the associated bonding-curve token
account (account position 4, index 3) with the Token 2022 program id as the
token-program seed, while the `create` builder derives the same position with
the standard token program id; the two program ids differ and the two derived
addresses differ. -/
theorem create_v2_token_2022_derivation (payer mint : Keypair)
    (a : Create) (b : CreateV2) :
    ((create_v2 payer mint b).accounts[3]?).map AccountMeta.pubkey
      = some (PumpFun.get_associated_token_address_with_program
          (unwrapKey (PumpFun.get_bonding_curve_pda mint.pubkey)) mint.pubkey
          constants.accounts.TOKEN_2022_PROGRAM) ∧
    ((create payer mint a).accounts[3]?).map AccountMeta.pubkey
      = some (PumpFun.get_associated_token_address_with_program
          (unwrapKey (PumpFun.get_bonding_curve_pda mint.pubkey)) mint.pubkey
          constants.accounts.TOKEN_PROGRAM) ∧
    constants.accounts.TOKEN_2022_PROGRAM ≠ constants.accounts.TOKEN_PROGRAM ∧
    PumpFun.get_associated_token_address_with_program
        (unwrapKey (PumpFun.get_bonding_curve_pda mint.pubkey)) mint.pubkey
        constants.accounts.TOKEN_2022_PROGRAM
      ≠ PumpFun.get_associated_token_address_with_program
        (unwrapKey (PumpFun.get_bonding_curve_pda mint.pubkey)) mint.pubkey
        constants.accounts.TOKEN_PROGRAM := by
  refine ⟨rfl, rfl, ?_, ?_⟩
  · intro h
    simp only [constants.accounts.TOKEN_2022_PROGRAM,
      constants.accounts.TOKEN_PROGRAM] at h
    injection h with hs
    exact absurd hs (by decide)
  · intro h
    simp only [PumpFun.get_associated_token_address_with_program] at h
    injection h with hseeds hprog
    injection hseeds with hk hrest
    injection hrest with hk2 hrest2
    simp only [constants.accounts.TOKEN_2022_PROGRAM,
      constants.accounts.TOKEN_PROGRAM] at hk2
    injection hk2 with hs
    exact absurd hs (by decide)

/-- C4 witness: at a concrete mint, position 4 of `create_v2` is the
Token-2022-derived associated token address. -/
theorem create_v2_token_2022_derivation_witness :
    ((create_v2 { pubkey := Pubkey.raw [1] } { pubkey := Pubkey.raw [2] }
        { name := [], symbol := [], uri := [], creator := [],
          is_mayhem_mode := false }).accounts[3]?).map AccountMeta.pubkey
      = some (PumpFun.get_associated_token_address_with_program
          (unwrapKey (PumpFun.get_bonding_curve_pda (Pubkey.raw [2])))
          (Pubkey.raw [2]) constants.accounts.TOKEN_2022_PROGRAM) :=
  (create_v2_token_2022_derivation { pubkey := Pubkey.raw [1] }
    { pubkey := Pubkey.raw [2] }
    { name := [], symbol := [], uri := [], creator := [] }
    { name := [], symbol := [], uri := [], creator := [],
      is_mayhem_mode := false }).1

/-- C8 (counterexample to the claim as stated): the image-upload body is
byte-identical for a `.png` path and a `.txt` path with the same contents and
always carries the literal `Content-Type: application/octet-stream` header —
the generic binary type — whereas the claim's inference would give `png` a
distinct explicitly-recognized content type. -/
theorem image_content_type_not_inferred_cx :
    upload_image_body "token.png" [1, 2, 3] = upload_image_body "token.txt" [1, 2, 3] ∧
    listInfixOf (strBytes "Content-Type: application/octet-stream")
      (upload_image_body "token.png" [1, 2, 3]) = true ∧
    infer_content_type_spec "png" ≠ "application/octet-stream" := by
  refine ⟨rfl, by decide, by decide⟩

/-- C8 (amended): for every input file, the multipart body built for the
image upload carries the fixed content type `application/octet-stream` (the
generic binary type for every extension, with no extension-based inference —
the bodies built for any two paths with the same contents coincide). -/
theorem image_content_type_constant (p q : String) (contents : List Nat) :
    upload_image_body p contents = upload_image_body q contents ∧
    listInfixOf (strBytes "Content-Type: application/octet-stream")
      (upload_image_body p contents) = true := by
  constructor
  · rfl
  · have h1 : listInfixOf (strBytes "Content-Type: application/octet-stream")
        (strBytes ("--" ++ upload_boundary ++ "\r\n"
          ++ "Content-Disposition: form-data; name=\"file\"; filename=\"file\"\r\n"
          ++ "Content-Type: application/octet-stream\r\n\r\n")) = true := by decide
    exact listInfixOf_append_left _ _ _ (listInfixOf_append_left _ _ _ h1)

/-- C10: the metadata-upload form carries the image location twice, under the
field names `image` and `imageUri`; it always carries `showName = "true"` and
`createdOn = "https://pump.fun"`; and it carries the `twitter`, `telegram`
and `website` fields exactly when the corresponding optional input is
present, regardless of whether the present string is empty.  The first
conjunct ties the field list to the multipart body byte-for-byte. -/
theorem metadata_body_fields (m : CreateTokenMetadata) (image_uri : String) :
    upload_metadata_body m image_uri
      = (metadata_form_fields m image_uri).foldl
          (fun b f => append_text_field b upload_boundary f.1 f.2) ""
        ++ "--" ++ upload_boundary ++ "--\r\n" ∧
    ("image", image_uri) ∈ metadata_form_fields m image_uri ∧
    ("imageUri", image_uri) ∈ metadata_form_fields m image_uri ∧
    (metadata_form_fields m image_uri).countP
        (fun f => f.1 == "image" || f.1 == "imageUri") = 2 ∧
    ("showName", "true") ∈ metadata_form_fields m image_uri ∧
    ("createdOn", "https://pump.fun") ∈ metadata_form_fields m image_uri ∧
    (∀ t, ("twitter", t) ∈ metadata_form_fields m image_uri ↔ m.twitter = some t) ∧
    (∀ t, ("telegram", t) ∈ metadata_form_fields m image_uri ↔ m.telegram = some t) ∧
    (∀ w, ("website", w) ∈ metadata_form_fields m image_uri ↔ m.website = some w) := by
  obtain ⟨name, symbol, description, file, tw, tg, ws⟩ := m
  rcases tw with _ | t1 <;> rcases tg with _ | t2 <;> rcases ws with _ | t3 <;>
    refine ⟨rfl, ?_, ?_, ?_, ?_, ?_, ?_, ?_, ?_⟩ <;>
    simp [metadata_form_fields, List.countP_cons, Prod.ext_iff, eq_comm]

/-- C10 witness: the field properties at a concrete metadata record with a
present-but-empty twitter handle and absent telegram/website. -/
theorem metadata_body_fields_witness :
    ("twitter", "") ∈ metadata_form_fields
      { name := "n", symbol := "s", description := "d", file := "f",
        twitter := some "", telegram := none, website := none } "ipfs://img" ∧
    ¬ ("telegram", "") ∈ metadata_form_fields
      { name := "n", symbol := "s", description := "d", file := "f",
        twitter := some "", telegram := none, website := none } "ipfs://img" := by
  have h := metadata_body_fields
    { name := "n", symbol := "s", description := "d", file := "f",
      twitter := some "", telegram := none, website := none } "ipfs://img"
  exact ⟨(h.2.2.2.2.2.2.1 "").mpr rfl,
    fun hc => Option.noConfusion ((h.2.2.2.2.2.2.2.1 "").mp hc)⟩

mutual

theorem find_ipfs_string_spec : ∀ (v : Json),
    (∃ s, find_ipfs_string v = some s ∧ Json.StrIn v s ∧ looks_like_uri s = true) ∨
    (find_ipfs_string v = none ∧ ∀ s, Json.StrIn v s → looks_like_uri s = false)
  | .null => Or.inr ⟨rfl, fun s h => by cases h⟩
  | .jbool b => Or.inr ⟨rfl, fun s h => by cases h⟩
  | .jnum n => Or.inr ⟨rfl, fun s h => by cases h⟩
  | .jstr s => by
    by_cases h : looks_like_uri s = true
    · exact Or.inl ⟨s, by simp [find_ipfs_string, h], Json.StrIn.self s, h⟩
    · refine Or.inr ⟨by simp [find_ipfs_string, h], ?_⟩
      intro x hx
      cases hx
      simpa using h
  | .jarr elems => by
    rcases find_ipfs_string_arr_spec elems with ⟨s, h1, h2, h3⟩ | ⟨h1, h2⟩
    · exact Or.inl ⟨s, by simp [find_ipfs_string, h1], Json.StrIn.inArr h2, h3⟩
    · refine Or.inr ⟨by simp [find_ipfs_string, h1], ?_⟩
      intro x hx
      cases hx with
      | inArr hmem => exact h2 x hmem
  | .jobj fields => by
    rcases find_ipfs_string_obj_spec fields with ⟨s, h1, h2, h3⟩ | ⟨h1, h2⟩
    · exact Or.inl ⟨s, by simp [find_ipfs_string, h1], Json.StrIn.inObj h2, h3⟩
    · refine Or.inr ⟨by simp [find_ipfs_string, h1], ?_⟩
      intro x hx
      cases hx with
      | inObj hmem => exact h2 x hmem

theorem find_ipfs_string_arr_spec : ∀ (l : JsonArr),
    (∃ s, find_ipfs_string_arr l = some s ∧ JsonArr.StrIn l s ∧ looks_like_uri s = true) ∨
    (find_ipfs_string_arr l = none ∧ ∀ s, JsonArr.StrIn l s → looks_like_uri s = false)
  | .nil => Or.inr ⟨rfl, fun s h => by cases h⟩
  | .cons hd tl => by
    rcases find_ipfs_string_spec hd with ⟨s, h1, h2, h3⟩ | ⟨h1, h2⟩
    · exact Or.inl ⟨s, by simp [find_ipfs_string_arr, h1], JsonArr.StrIn.hd h2, h3⟩
    · rcases find_ipfs_string_arr_spec tl with ⟨s, g1, g2, g3⟩ | ⟨g1, g2⟩
      · exact Or.inl ⟨s, by simp [find_ipfs_string_arr, h1, g1], JsonArr.StrIn.tl g2, g3⟩
      · refine Or.inr ⟨by simp [find_ipfs_string_arr, h1, g1], ?_⟩
        intro x hx
        cases hx with
        | hd h => exact h2 x h
        | tl h => exact g2 x h

theorem find_ipfs_string_obj_spec : ∀ (l : JsonObj),
    (∃ s, find_ipfs_string_obj l = some s ∧ JsonObj.StrIn l s ∧ looks_like_uri s = true) ∨
    (find_ipfs_string_obj l = none ∧ ∀ s, JsonObj.StrIn l s → looks_like_uri s = false)
  | .nil => Or.inr ⟨rfl, fun s h => by cases h⟩
  | .cons k v tl => by
    rcases find_ipfs_string_spec v with ⟨s, h1, h2, h3⟩ | ⟨h1, h2⟩
    · exact Or.inl ⟨s, by simp [find_ipfs_string_obj, h1], JsonObj.StrIn.hd h2, h3⟩
    · rcases find_ipfs_string_obj_spec tl with ⟨s, g1, g2, g3⟩ | ⟨g1, g2⟩
      · exact Or.inl ⟨s, by simp [find_ipfs_string_obj, h1, g1], JsonObj.StrIn.tl g2, g3⟩
      · refine Or.inr ⟨by simp [find_ipfs_string_obj, h1, g1], ?_⟩
        intro x hx
        cases hx with
        | hd h => exact h2 x h
        | tl h => exact g2 x h

end

theorem extract_image_location_sound (v : Json) (s : String)
    (h : extract_image_location v = some s) : image_location_of v s := by
  unfold extract_image_location at h
  unfold image_location_of
  cases h1 : v.getStrField "imageUri" with
  | some x => rw [h1] at h; cases h; exact Or.inl rfl
  | none =>
  rw [h1] at h
  cases h2 : v.getStrField "image_uri" with
  | some x => rw [h2] at h; cases h; exact Or.inr (Or.inl rfl)
  | none =>
  rw [h2] at h
  cases h3 : v.getStrField "uri" with
  | some x => rw [h3] at h; cases h; exact Or.inr (Or.inr (Or.inl rfl))
  | none =>
  rw [h3] at h
  cases h4 : v.getStrField "url" with
  | some x => rw [h4] at h; cases h; exact Or.inr (Or.inr (Or.inr (Or.inl rfl)))
  | none =>
  rw [h4] at h
  rcases find_ipfs_string_spec v with ⟨x, g1, g2, g3⟩ | ⟨g1, g2⟩
  · rw [g1] at h
    cases h
    exact Or.inr (Or.inr (Or.inr (Or.inr ⟨g2, g3⟩)))
  · rw [g1] at h
    cases h

theorem extract_image_location_complete (v : Json)
    (h : recognizable_image_location v) :
    ∃ s, extract_image_location v = some s := by
  unfold extract_image_location
  cases h1 : v.getStrField "imageUri" with
  | some x => exact ⟨x, rfl⟩
  | none =>
  cases h2 : v.getStrField "image_uri" with
  | some x => exact ⟨x, rfl⟩
  | none =>
  cases h3 : v.getStrField "uri" with
  | some x => exact ⟨x, rfl⟩
  | none =>
  cases h4 : v.getStrField "url" with
  | some x => exact ⟨x, rfl⟩
  | none =>
  rcases find_ipfs_string_spec v with ⟨x, g1, g2, g3⟩ | ⟨g1, g2⟩
  · exact ⟨x, g1⟩
  · exfalso
    obtain ⟨s, hs⟩ := h
    rcases hs with hs | hs | hs | hs | ⟨hin, huri⟩
    · rw [h1] at hs; cases hs
    · rw [h2] at hs; cases hs
    · rw [h3] at hs; cases hs
    · rw [h4] at hs; cases hs
    · rw [g2 s hin] at huri; cases huri

/-- C7 (counterexample to the claim as stated): the JSON body
`\x7b"a": "IPFS"\x7d` carries no recognized field name and no nested string
that (case-sensitively) contains `"ipfs"` or starts with `"http"` — so the
claim as written demands the error path — yet the parser lowercases before
matching and extracts `"IPFS"` successfully. -/
theorem upload_image_case_sensitivity_cx :
    recognizable_image_location_cs
        (Json.jobj (.cons "a" (.jstr "IPFS") .nil)) = false ∧
    upload_image_parse "\x7b\"a\":\"IPFS\"\x7d"
        (Json.jobj (.cons "a" (.jstr "IPFS") .nil))
      = Except.ok "IPFS" := by
  constructor
  · rfl
  · rfl

/-- C7 (amended): given the parsed response value and the raw body, the
image-upload response parsing extracts a location string exactly when the
body carries one under a recognized field name (`imageUri`, `image_uri`,
`uri`, `url`) or as a nested string whose lowercased form contains `"ipfs"`
or starts with `"http"`; any extracted string is such a location; the
strategies apply in that fixed priority order; and on a body with no such
(case-insensitively) recognizable location it returns an error whose message
contains the raw response body. -/
theorem upload_image_tolerant (text : String) (v : Json) :
    (recognizable_image_location v ↔ ∃ s, upload_image_parse text v = Except.ok s) ∧
    (∀ s, upload_image_parse text v = Except.ok s → image_location_of v s) ∧
    (∀ s, v.getStrField "imageUri" = some s → upload_image_parse text v = Except.ok s) ∧
    (∀ s, v.getStrField "imageUri" = none → v.getStrField "image_uri" = some s →
      upload_image_parse text v = Except.ok s) ∧
    (∀ s, v.getStrField "imageUri" = none → v.getStrField "image_uri" = none →
      v.getStrField "uri" = some s → upload_image_parse text v = Except.ok s) ∧
    (∀ s, v.getStrField "imageUri" = none → v.getStrField "image_uri" = none →
      v.getStrField "uri" = none → v.getStrField "url" = some s →
      upload_image_parse text v = Except.ok s) ∧
    (∀ s, v.getStrField "imageUri" = none → v.getStrField "image_uri" = none →
      v.getStrField "uri" = none → v.getStrField "url" = none →
      find_ipfs_string v = some s → upload_image_parse text v = Except.ok s) ∧
    (¬ recognizable_image_location v →
      upload_image_parse text v
        = Except.error ("unexpected image upload response: " ++ text) ∧
      listInfixOf text.data
        ("unexpected image upload response: " ++ text).data = true) := by
  have hok : ∀ s, upload_image_parse text v = Except.ok s →
      extract_image_location v = some s := by
    intro s h
    unfold upload_image_parse at h
    cases hex : extract_image_location v with
    | some x => rw [hex] at h; cases h; rfl
    | none => rw [hex] at h; cases h
  refine ⟨⟨?_, ?_⟩, ?_, ?_, ?_, ?_, ?_, ?_, ?_⟩
  · intro h
    obtain ⟨s, hs⟩ := extract_image_location_complete v h
    exact ⟨s, by unfold upload_image_parse; rw [hs]⟩
  · rintro ⟨s, hs⟩
    exact ⟨s, extract_image_location_sound v s (hok s hs)⟩
  · intro s hs
    exact extract_image_location_sound v s (hok s hs)
  · intro s h1
    unfold upload_image_parse extract_image_location
    rw [h1]
  · intro s h1 h2
    unfold upload_image_parse extract_image_location
    rw [h1, h2]
  · intro s h1 h2 h3
    unfold upload_image_parse extract_image_location
    rw [h1, h2, h3]
  · intro s h1 h2 h3 h4
    unfold upload_image_parse extract_image_location
    rw [h1, h2, h3, h4]
  · intro s h1 h2 h3 h4 h5
    unfold upload_image_parse extract_image_location
    rw [h1, h2, h3, h4, h5]
  · intro hnr
    cases hex : extract_image_location v with
    | some s => exact absurd ⟨s, extract_image_location_sound v s hex⟩ hnr
    | none =>
      constructor
      · unfold upload_image_parse
        rw [hex]
      · rw [String.data_append]
        exact listInfixOf_append_right _ _

/-- C7 witness: the amended theorem applied at a concrete body with no
recognizable location (`null`), yielding the error that carries the raw
body. -/
theorem upload_image_tolerant_witness :
    upload_image_parse "resp" Json.null
      = Except.error ("unexpected image upload response: " ++ "resp") := by
  have h := (upload_image_tolerant "resp" Json.null).2.2.2.2.2.2.2
  refine (h ?_).1
  rintro ⟨s, hs | hs | hs | hs | ⟨hin, _⟩⟩
  · exact Option.noConfusion hs
  · exact Option.noConfusion hs
  · exact Option.noConfusion hs
  · exact Option.noConfusion hs
  · cases hin
